import Mathlib

/-!
Verification development for the object-detection backend of the
raster-vision repository (`rastervision2/pytorch_learner/object_detection_utils.py`).

Tensors are shallowly embedded: a row of a `<n, 4>` box tensor is a `Box`
(four rational columns), a 1-D tensor is a `Tensor1` (rational data plus a
dtype tag), and the per-box auxiliary-field dictionary (`extras`) is an
association list in insertion order, mirroring Python dict semantics.
Floating-point values are modelled as rationals; the operations under study
are permutations, concatenations, filters, comparisons and exact rational
arithmetic, none of which depend on rounding.
-/

set_option autoImplicit false

/-- Dtype tag of a modelled tensor (`float` vs `long` in torch). -/
inductive DType where
  | float
  | long
  deriving DecidableEq, Repr, Inhabited

/-- A 1-D tensor: data values plus dtype. -/
structure Tensor1 where
  data : List ℚ
  dtype : DType
  deriving DecidableEq, Repr, Inhabited

/-- One row of an `<n, 4>` box tensor; columns are positional (`boxes[:, 0..3]`).
In the canonical orientation of `BoxList` the columns read (ymin, xmin, ymax, xmax). -/
structure Box where
  c0 : ℚ
  c1 : ℚ
  c2 : ℚ
  c3 : ℚ
  deriving DecidableEq, Repr, Inhabited

/-- The column permutation `boxes[:, [1, 0, 3, 2]]` used by both
`BoxList.xyxy` and `BoxList.yxyx`. -/
def Box.perm (b : Box) : Box :=
  ⟨b.c1, b.c0, b.c3, b.c2⟩

/-- First-match association-list lookup (Python `dict.get`). -/
def alookup {κ α : Type} [DecidableEq κ] : List (κ × α) → κ → Option α
  | [], _ => none
  | (k, v) :: rest, q => if q = k then some v else alookup rest q

/-- `defaultdict(list)` update: append `v` to the entry of `k`, creating the
entry at the end if `k` is absent (Python dict insertion order). -/
def addMulti {κ α : Type} [DecidableEq κ] : List (κ × List α) → κ → α → List (κ × List α)
  | [], k, v => [(k, [v])]
  | (k', vs) :: rest, k, v =>
      if k = k' then (k', vs ++ [v]) :: rest else (k', vs) :: addMulti rest k v

/-- `BoxList`: boxes `tensor<n, 4>` in (ymin, xmin, ymax, xmax) order plus the
`extras` dict of per-box fields (e.g. `labels`, `scores`), in insertion order. -/
structure BoxList where
  boxes : List Box
  extras : List (String × Tensor1)
  deriving DecidableEq, Repr, Inhabited

namespace BoxList

/-- `BoxList.get_field` on a non-reserved name: `self.extras.get(name)`.
(The reserved name `'boxes'` returns the 2-D box tensor in the source and is
modelled separately by the `boxes` projection.) -/
def get_field (bl : BoxList) (name : String) : Option Tensor1 :=
  alookup bl.extras name

/-- The `labels` tensor of a `BoxList` (empty long tensor when absent). -/
def labelsTensor (bl : BoxList) : Tensor1 :=
  (alookup bl.extras "labels").getD ⟨[], DType.long⟩

/-- The `labels` data of a `BoxList`. -/
def labelsData (bl : BoxList) : List ℚ :=
  bl.labelsTensor.data

/-- The `scores` data of a `BoxList` (empty when absent). -/
def scoresData (bl : BoxList) : List ℚ :=
  ((alookup bl.extras "scores").getD ⟨[], DType.float⟩).data

/-- `BoxList.xyxy`: `boxes[:, [1, 0, 3, 2]]`, extras passed through. -/
def xyxy (bl : BoxList) : BoxList :=
  ⟨bl.boxes.map Box.perm, bl.extras⟩

/-- `BoxList.yxyx`: `boxes[:, [1, 0, 3, 2]]`, extras passed through. -/
def yxyx (bl : BoxList) : BoxList :=
  ⟨bl.boxes.map Box.perm, bl.extras⟩

/-- `torch.clamp(x, lo, hi)` on a scalar. -/
def clampQ (lo hi x : ℚ) : ℚ :=
  min (max x lo) hi

/-- `BoxList.clamp(img_height, img_width)`: columns 0 and 2 are clamped into
`[0, img_height]`, columns 1 and 3 into `[0, img_width]`; extras passed through. -/
def clamp (bl : BoxList) (img_height img_width : ℚ) : BoxList :=
  ⟨bl.boxes.map (fun b =>
      ⟨clampQ 0 img_height b.c0, clampQ 0 img_width b.c1,
       clampQ 0 img_height b.c2, clampQ 0 img_width b.c3⟩),
   bl.extras⟩

/-- `BoxList.scale(yscale, xscale)`: multiply columns by `[yscale, xscale, yscale, xscale]`;
extras passed through. -/
def scale (bl : BoxList) (yscale xscale : ℚ) : BoxList :=
  ⟨bl.boxes.map (fun b =>
      ⟨b.c0 * yscale, b.c1 * xscale, b.c2 * yscale, b.c3 * xscale⟩),
   bl.extras⟩

/-- Boolean-mask row selection (`t[mask]` in torch): keep the rows whose mask
entry is true, in order. -/
def maskFilter {α : Type} (xs : List α) (mask : List Bool) : List α :=
  ((xs.zip mask).filter (fun p => p.2)).map (fun p => p.1)

/-- `BoxList.ind_filter` with a boolean mask: select rows of the boxes and of
every extras field by the same mask. -/
def indFilterMask (bl : BoxList) (mask : List Bool) : BoxList :=
  ⟨maskFilter bl.boxes mask,
   bl.extras.map (fun kv => (kv.1, ⟨maskFilter kv.2.data mask, kv.2.dtype⟩))⟩

/-- `torch.cat` on a list of 1-D tensors: concatenated data, dtype of the first. -/
def catTensors (ts : List Tensor1) : Tensor1 :=
  ⟨(ts.map Tensor1.data).flatten, (ts.headD ⟨[], DType.float⟩).dtype⟩

/-- The `defaultdict(list)` accumulation of one BoxList's extras into `acc`
(inner loop of `BoxList.cat`). -/
def addExtras (acc : List (String × List Tensor1)) (bl : BoxList) :
    List (String × List Tensor1) :=
  bl.extras.foldl (fun a kv => addMulti a kv.1 kv.2) acc

/-- The `defaultdict(list)` accumulation over all BoxLists in `BoxList.cat`. -/
def collectExtras (bls : List BoxList) : List (String × List Tensor1) :=
  bls.foldl addExtras []

/-- `BoxList.cat`: concatenate boxes row-wise in input order and, per extra key
(in first-appearance order), concatenate the values collected from the inputs
that carry that key. `torch.cat` on the empty list of box tensors raises, which
is the only failure: no key-set validation is performed. -/
def cat (bls : List BoxList) : Option BoxList :=
  if bls.isEmpty then none
  else some ⟨(bls.map boxes).flatten,
             (collectExtras bls).map (fun kv => (kv.1, catTensors kv.2))⟩

/-- Row `i` of the widened array `torch.cat([self.boxes] + extras, 1)` used by
`BoxList.equal`: the four box columns followed by each extras value (in the
dict's order), cast to float (a no-op on the rational model). -/
def rowTuple (bl : BoxList) (i : Nat) : List ℚ :=
  (match bl.boxes.getD i ⟨0, 0, 0, 0⟩ with
   | ⟨a, b, c, d⟩ => [a, b, c, d]) ++ bl.extras.map (fun kv => kv.2.data.getD i 0)

/-- All row tuples of a `BoxList`, in row order. -/
def rowTuples (bl : BoxList) : List (List ℚ) :=
  (List.range bl.boxes.length).map (rowTuple bl)

/-- The Python `set(...)` of row tuples built by `BoxList.equal`. -/
def rowFinset (bl : BoxList) : Finset (List ℚ) :=
  (rowTuples bl).toFinset

/-- `BoxList.equal`: false when lengths differ, otherwise compare the sets of
row tuples (row order — and row multiplicity, by the nature of `set` — ignored). -/
def equal (bl other : BoxList) : Bool :=
  if other.boxes.length ≠ bl.boxes.length then false
  else decide (rowFinset bl = rowFinset other)

end BoxList

/-! ### CocoDataset -/

/-- One record of an annotation file's `images` collection (the fields the
loader reads). -/
structure CocoImgJson where
  id : Nat
  file_name : String
  deriving DecidableEq, Repr

/-- A `bbox` entry `[xmin, ymin, width, height]` of an annotation file;
fields are positional (`box[0..3]`). -/
structure BBoxXYWH where
  b0 : ℚ
  b1 : ℚ
  b2 : ℚ
  b3 : ℚ
  deriving DecidableEq, Repr

/-- One record of an annotation file's `annotations` collection (the fields
the loader reads). -/
structure CocoAnnJson where
  image_id : Nat
  bbox : BBoxXYWH
  category_id : ℚ
  deriving DecidableEq, Repr

/-- A parsed annotation file (`file_to_json` of one annotation URI). -/
structure CocoJson where
  images : List CocoImgJson
  annotations : List CocoAnnJson
  deriving DecidableEq, Repr

/-- The conversion applied by `CocoDataset.__init__` to each annotation bbox:
`[box[1], box[0], box[1] + box[3], box[0] + box[2]]`, i.e. (xmin, ymin, w, h)
becomes the yxyx box (ymin, xmin, ymin + h, xmin + w). -/
def convBox (b : BBoxXYWH) : Box :=
  ⟨b.b1, b.b0, b.b1 + b.b3, b.b0 + b.b2⟩

/-- The index built by `CocoDataset.__init__`: image filenames in load order
and the filename/id/boxes/labels mappings (dicts modelled as association
lists; duplicate-free keys are assumed, as for Python dicts built from
well-formed annotation files). -/
structure CocoDataset where
  imgs : List String
  img2id : List (String × Nat)
  id2img : List (Nat × String)
  id2boxes : List (Nat × List Box)
  id2labels : List (Nat × List ℚ)
  deriving Repr

/-- The per-annotation-file step of `CocoDataset.__init__`: record the images,
then append each annotation's converted box and label to the per-image-id
`defaultdict` entries. -/
def cocoStep (ds : CocoDataset) (aj : CocoJson) : CocoDataset :=
  let ds1 : CocoDataset :=
    { ds with
      imgs := ds.imgs ++ aj.images.map CocoImgJson.file_name,
      img2id := ds.img2id ++ aj.images.map (fun im => (im.file_name, im.id)),
      id2img := ds.id2img ++ aj.images.map (fun im => (im.id, im.file_name)) }
  aj.annotations.foldl
    (fun d an =>
      { d with
        id2boxes := addMulti d.id2boxes an.image_id (convBox an.bbox),
        id2labels := addMulti d.id2labels an.image_id an.category_id })
    ds1

/-- `CocoDataset.__init__` over the parsed contents of the annotation URIs
(file reading is external I/O and is abstracted to its parsed result). The
final dict-to-tensor conversion keeps the already-collected box and label
sequences (boxes become one float tensor per image id, labels one long
tensor per image id). -/
def CocoDataset.init (anns : List CocoJson) : CocoDataset :=
  anns.foldl cocoStep ⟨[], [], [], [], []⟩

/-- The `BoxList` component of `CocoDataset.__getitem__(ind)` (image loading
from disk and the optional transform are external and omitted): look up the
filename at `ind`, its image id, and return either the recorded boxes with a
long `labels` tensor, or an empty `BoxList` with a typed-empty (long) `labels`
field when the id has no annotations. -/
def CocoDataset.getBoxList (ds : CocoDataset) (ind : Nat) : BoxList :=
  let fn := ds.imgs.getD ind ""
  let imgId := (alookup ds.img2id fn).getD 0
  match alookup ds.id2boxes imgId with
  | some boxes =>
      ⟨boxes, [("labels", ⟨(alookup ds.id2labels imgId).getD [], DType.long⟩)]⟩
  | none => ⟨[], [("labels", ⟨[], DType.long⟩)]⟩

/-! ### Evaluation (compute_coco_eval, compute_class_f1) -/

/-- One record of the synthetic ground-truth `images` collection built by
`get_coco_gt` (fake height/width/filename). -/
structure CocoImageRec where
  id : Nat
  height : ℚ
  width : ℚ
  file_name : String
  deriving DecidableEq, Repr

/-- One ground-truth annotation record built by `get_coco_gt`. -/
structure CocoGtAnn where
  id : Nat
  image_id : Nat
  category_id : ℚ
  area : ℚ
  bbox : List ℚ
  iscrowd : Nat
  deriving DecidableEq, Repr

/-- One category record built by `get_coco_gt`. -/
structure CocoCategory where
  id : Nat
  name : String
  supercategory : String
  deriving DecidableEq, Repr

/-- The annotation-format record set built by `get_coco_gt`. -/
structure CocoGt where
  images : List CocoImageRec
  annotations : List CocoGtAnn
  categories : List CocoCategory
  deriving DecidableEq, Repr

/-- One prediction record built by `get_coco_preds`. -/
structure CocoPred where
  image_id : Nat
  category_id : ℚ
  bbox : List ℚ
  score : ℚ
  deriving DecidableEq, Repr

/-- The `zip(boxes, labels)` rows of one target `BoxList`. -/
def gtRows (t : BoxList) : List (Box × ℚ) :=
  t.boxes.zip t.labelsData

/-- One ground-truth annotation record: area `(box[2]-box[0])*(box[3]-box[1])`
and `bbox = [box[1], box[0], box[3]-box[1], box[2]-box[0]]` (yxyx back to
xmin/ymin/width/height). -/
def annFromRow (annId imgId : Nat) (row : Box × ℚ) : CocoGtAnn :=
  let b := row.1
  { id := annId, image_id := imgId, category_id := row.2,
    area := (b.c2 - b.c0) * (b.c3 - b.c1),
    bbox := [b.c1, b.c0, b.c3 - b.c1, b.c2 - b.c0], iscrowd := 0 }

/-- The annotation records of `get_coco_gt`: image ids enumerate the targets
from 1, annotation ids run from 1 across all targets. -/
def buildGtAnns : Nat → Nat → List BoxList → List CocoGtAnn
  | _, _, [] => []
  | imgId, annId, t :: rest =>
      let rows := gtRows t
      (rows.enum.map (fun p => annFromRow (annId + p.1) imgId p.2)) ++
        buildGtAnns (imgId + 1) (annId + rows.length) rest

/-- `get_coco_gt(targets, num_labels)`: synthetic images (1-based ids, fake
1000×1000 size, fake filename), the converted annotations, and one category
per label in `range(num_labels)`. -/
def get_coco_gt (targets : List BoxList) (num_labels : Nat) : CocoGt :=
  { images := targets.enum.map (fun p =>
      { id := p.1 + 1, height := 1000, width := 1000,
        file_name := toString (p.1 + 1) ++ ".png" }),
    annotations := buildGtAnns 1 1 targets,
    categories := (List.range num_labels).map (fun l =>
      { id := l, name := toString l, supercategory := "super" }) }

/-- The `zip(boxes, labels, scores)` rows of one output `BoxList`
(truncating to the shortest, as Python `zip` does). -/
def predRows (o : BoxList) : List ((Box × ℚ) × ℚ) :=
  (o.boxes.zip o.labelsData).zip o.scoresData

/-- One prediction record of `get_coco_preds`. -/
def predFromRow (imgId : Nat) (row : (Box × ℚ) × ℚ) : CocoPred :=
  let b := row.1.1
  { image_id := imgId, category_id := row.1.2,
    bbox := [b.c1, b.c0, b.c3 - b.c1, b.c2 - b.c0], score := row.2 }

/-- `get_coco_preds(outputs)`: the flat list of prediction records, image ids
enumerating the outputs from 1. -/
def get_coco_preds (outputs : List BoxList) : List CocoPred :=
  (outputs.enum.map (fun p =>
    (predRows p.2).map (predFromRow (p.1 + 1)))).flatten

/-- The accumulated COCO evaluation, modelled by the two record sets handed to
the external `pycocotools` evaluator (`COCOeval` itself is an external
collaborator; `compute_coco_eval` returns its result object in the source). -/
structure CocoEvalInput where
  gt : CocoGt
  preds : List CocoPred
  deriving DecidableEq, Repr

/-- `compute_coco_eval(outputs, targets, num_labels)`: `None` — the explicit
undefined-metric result — exactly when `get_coco_preds` yields no records;
otherwise the evaluation over the two record sets. -/
def compute_coco_eval (outputs targets : List BoxList) (num_labels : Nat) :
    Option CocoEvalInput :=
  let preds := get_coco_preds outputs
  if preds.isEmpty then none
  else some ⟨get_coco_gt targets num_labels, preds⟩

/-- The 5-D `coco_eval.eval['precision']` / `['scores']` arrays, indexed
`[iou_threshold, recall_point, class, area_range, max_detections]`. -/
def Arr5 : Type :=
  List (List (List (List (List ℚ))))

/-- The slice `arr[0, :, :, 0, -1]` taken by `compute_class_f1`: IoU-threshold
index 0 (IoU 0.5 in the COCO grid), area-range index 0, last max-detections
index; a recall-point × class matrix remains. -/
def sliceT0A0Mlast (arr : Arr5) : List (List ℚ) :=
  (arr.headD []).map (fun row => row.map (fun byA => (byA.headD []).getLastD 0))

/-- Entry `[0, i, k, 0, -1]` of a 5-D eval array. -/
def entryT0A0Mlast (arr : Arr5) (i k : Nat) : ℚ :=
  ((((arr.getD 0 []).getD i []).getD k []).getD 0 []).getLastD 0

/-- `np.linspace(0, 1, num=n)`. -/
def recallGrid (n : Nat) : List ℚ :=
  (List.range n).map (fun (i : Nat) =>
    if n ≤ 1 then (0 : ℚ) else (i : ℚ) / ((n : ℚ) - 1))

/-- The F1 formula of `compute_class_f1`:
`(2 * precision * recall) / np.maximum(precision + recall, 1e-4)`. -/
def f1q (p r : ℚ) : ℚ :=
  (2 * p * r) / max (p + r) (1 / 10000)

/-- The `f1s` matrix: broadcast of `f1q` over the sliced precision matrix and
the recall grid (one recall value per row). -/
def f1Mat (P : List (List ℚ)) : List (List ℚ) :=
  (P.zip (recallGrid P.length)).map (fun rowR => rowR.1.map (fun p => f1q p rowR.2))

/-- Column `k` of a matrix (classes are columns after the slice). -/
def column (M : List (List ℚ)) (k : Nat) : List ℚ :=
  M.map (fun row => row.getD k 0)

/-- `np.max` over a list (the empty case cannot arise in the uses below). -/
def listMaxD : List ℚ → ℚ
  | [] => 0
  | [x] => x
  | x :: y :: rest => max x (listMaxD (y :: rest))

/-- `np.argmax` over a list: first index attaining the maximum. -/
def listArgmax : List ℚ → Nat
  | [] => 0
  | [_] => 0
  | x :: y :: rest => if listMaxD (y :: rest) ≤ x then 0 else listArgmax (y :: rest) + 1

/-- `compute_class_f1(coco_eval)` on the two 5-D eval arrays: slice
`[0, :, :, 0, -1]`, build the F1 matrix over the recall grid, and return the
per-class best F1 together with the score at the F1-maximizing recall index
(`scores[best_f1_inds, range(len(best_f1_inds))]`). -/
def compute_class_f1 (precision scoresArr : Arr5) : List ℚ × List ℚ :=
  let P := sliceT0A0Mlast precision
  let S := sliceT0A0Mlast scoresArr
  let F := f1Mat P
  let K := (P.headD []).length
  let best_f1s := (List.range K).map (fun k => listMaxD (column F k))
  let best_f1_inds := (List.range K).map (fun k => listArgmax (column F k))
  let best_scores := (List.range K).map (fun k =>
    (S.getD (best_f1_inds.getD k 0) []).getD k 0)
  (best_f1s, best_scores)

/-! ### MyFasterRCNN (Detector Adapter) -/

namespace MyFasterRCNN

/-- `self.subloss_names` as assigned in `MyFasterRCNN.__init__`. -/
def subloss_names : List String :=
  ["total_loss", "loss_box_reg", "loss_classifier", "loss_objectness",
   "loss_rpn_box_reg"]

/-- The per-sample target augmentation of the training branch of
`MyFasterRCNN.forward`: append the bogus full-image background box
`[0., 0, h, w]` to the boxes and the label `0` to the labels, where `(h, w)`
is the sample image's spatial shape. -/
def augTarget (hw : ℚ × ℚ) (y : BoxList) : BoxList :=
  ⟨y.boxes ++ [⟨0, 0, hw.1, hw.2⟩],
   [("labels", ⟨y.labelsTensor.data ++ [0], y.labelsTensor.dtype⟩)]⟩

/-- The augmented target list (`new_targets`) of the training branch: one
augmented `BoxList` per (image shape, target) pair of the batch. -/
def augmentTargets (sizes : List (ℚ × ℚ)) (targets : List BoxList) : List BoxList :=
  List.zipWith augTarget sizes targets

/-- A native target handed to the wrapped detector's loss computation:
`{'boxes': ..., 'labels': ...}` with boxes in xyxy form. -/
structure DetTarget where
  boxes : List Box
  labels : List ℚ
  deriving DecidableEq, Repr

/-- The `_targets` dict list passed to `self.model(input, _targets)` in the
training branch: each augmented `BoxList` converted by `xyxy()` and projected
to its boxes and labels. (The wrapped detector's loss computation itself is
the external torchvision collaborator.) -/
def trainDetTargets (sizes : List (ℚ × ℚ)) (targets : List BoxList) :
    List DetTarget :=
  (augmentTargets sizes targets).map (fun bl => ⟨bl.xyxy.boxes, bl.labelsData⟩)

/-- One raw per-image output of the wrapped detector in inference mode:
boxes in xyxy form plus labels and scores. -/
structure RawOut where
  boxes : List Box
  labels : List ℚ
  scores : List ℚ
  deriving DecidableEq, Repr

/-- The per-image post-processing of the inference branch of
`MyFasterRCNN.forward`: wrap the raw output as a `BoxList`, convert with
`yxyx()`, then drop the rows whose label is 0 (`labels != 0` mask through
`ind_filter`). -/
def processOut (o : RawOut) : BoxList :=
  let bl := (BoxList.mk o.boxes
    [("labels", ⟨o.labels, DType.long⟩), ("scores", ⟨o.scores, DType.float⟩)]).yxyx
  let mask := bl.labelsData.map (fun l => decide (l ≠ 0))
  bl.indFilterMask mask

/-- The inference branch of `MyFasterRCNN.forward`: the filtered `BoxList`
list, one per raw detector output. -/
def forward_infer (outs : List RawOut) : List BoxList :=
  outs.map processOut

end MyFasterRCNN

/-! ### Concrete instances used to exercise the definitions -/

/-- A sample box. -/
def boxOne : Box := ⟨0, 0, 1, 1⟩

/-- A second, distinct sample box. -/
def boxTwo : Box := ⟨2, 2, 3, 3⟩

/-- A `BoxList` with a duplicated first row. -/
def dupRowsA : BoxList := ⟨[boxOne, boxOne, boxTwo], []⟩

/-- A `BoxList` of the same length and the same row set as `dupRowsA`, but
with the second row duplicated instead. -/
def dupRowsB : BoxList := ⟨[boxOne, boxTwo, boxTwo], []⟩

/-- A parsed annotation file with two images; image 1 carries one annotation
with bbox `[10, 20, 30, 40]` (xmin, ymin, width, height) and category 1,
image 2 carries none. -/
def exAnnJson : CocoJson :=
  ⟨[⟨1, "a.png"⟩, ⟨2, "b.png"⟩], [⟨1, ⟨10, 20, 30, 40⟩, 1⟩]⟩

/-- The dataset loaded from `exAnnJson`. -/
def exDs : CocoDataset := CocoDataset.init [exAnnJson]

/-- A `BoxList` whose only extra field is `labels`. -/
def catInA : BoxList := ⟨[boxOne], [("labels", ⟨[5], DType.long⟩)]⟩

/-- A `BoxList` whose only extra field is `scores`: its key set differs from
`catInA`'s. -/
def catInB : BoxList := ⟨[boxTwo], [("scores", ⟨[7/10], DType.float⟩)]⟩

/-- A `BoxList` sharing `catInA`'s key set. -/
def catInC : BoxList := ⟨[boxTwo], [("labels", ⟨[9], DType.long⟩)]⟩

/-- An empty-target training sample (as produced for a negative chip). -/
def emptyTarget : BoxList := ⟨[], [("labels", ⟨[], DType.long⟩)]⟩

/-- A one-box training sample. -/
def oneBoxTarget : BoxList := ⟨[boxOne], [("labels", ⟨[2], DType.long⟩)]⟩

/-- A raw detector output mixing a background (label 0) box with a real one. -/
def exRawOut : MyFasterRCNN.RawOut :=
  ⟨[⟨1, 2, 3, 4⟩, ⟨5, 6, 7, 8⟩], [0, 3], [9/10, 8/10]⟩

/-- An inference output `BoxList` with one box (well-formed fields). -/
def exPredOut : BoxList :=
  ⟨[boxOne], [("labels", ⟨[1], DType.long⟩), ("scores", ⟨[1/2], DType.float⟩)]⟩

/-- An inference output `BoxList` with no boxes (well-formed fields). -/
def exEmptyOut : BoxList :=
  ⟨[], [("labels", ⟨[], DType.long⟩), ("scores", ⟨[], DType.float⟩)]⟩

/-- A 5-D precision array of shape `[1, 101, 1, 1, 1]` with constant
precision 1/2. -/
def exPrecArr : Arr5 := [List.replicate 101 [[[(1 : ℚ)/2]]]]

/-- A 5-D scores array of shape `[1, 101, 1, 1, 1]` with score `i / 1000` at
recall index `i`. -/
def exScoreArr : Arr5 :=
  [(List.range 101).map (fun (i : Nat) => [[[(i : ℚ)/1000]]])]

/-! ### Spec-side characterizations used in theorem statements -/

/-- The values a single BoxList contributes to extra field `q` ( `[v]` when the
key is present, `[]` otherwise, stated via its extras dict). -/
def extraVals (bl : BoxList) (q : String) : List Tensor1 :=
  (bl.extras.filter (fun kv => decide (kv.1 = q))).map Prod.snd

/-- The values field `q` collects across a list of BoxLists, in input order. -/
def fieldVals (bls : List BoxList) (q : String) : List Tensor1 :=
  (bls.map (fun bl => extraVals bl q)).flatten

/-- The converted boxes that `CocoDataset.__init__` stores for image id `i`
from one annotation file: the bboxes of the annotations referencing `i`, in
file order, each converted by `convBox`. -/
def annBoxesFor (aj : CocoJson) (i : Nat) : List Box :=
  (aj.annotations.filter (fun an => decide (an.image_id = i))).map
    (fun an => convBox an.bbox)

/-- `best_f1s`, the first component returned by `compute_class_f1`. -/
def bestF1s (precision scoresArr : Arr5) : List ℚ :=
  (compute_class_f1 precision scoresArr).1

/-- `best_scores`, the second component returned by `compute_class_f1`. -/
def bestScores (precision scoresArr : Arr5) : List ℚ :=
  (compute_class_f1 precision scoresArr).2

/-- The F1 value at recall index `i` (recall `i / 100` on the 101-point grid)
and class `k`: precision is read at IoU-threshold index 0 (IoU 0.5),
area-range index 0 and the last max-detections index. -/
def f1At (precision : Arr5) (i k : Nat) : ℚ :=
  f1q (entryT0A0Mlast precision i k) ((i : ℚ) / 100)

/-! ## Helper lemmas -/

theorem Box.perm_perm (b : Box) : b.perm.perm = b := rfl

theorem getD_zipWith {α β γ : Type} (f : α → β → γ) (as : List α) (bs : List β)
    (i : Nat) (da : α) (db : β) (dc : γ) (h1 : i < as.length) (h2 : i < bs.length) :
    (List.zipWith f as bs).getD i dc = f (as.getD i da) (bs.getD i db) := by
  rw [List.getD_eq_getElem _ _ (by rw [List.length_zipWith]; omega),
    List.getD_eq_getElem _ _ h1, List.getD_eq_getElem _ _ h2, List.getElem_zipWith]

theorem maskFilter_cons {α : Type} (x : α) (xs : List α) (b : Bool) (ms : List Bool) :
    BoxList.maskFilter (x :: xs) (b :: ms) =
      if b then x :: BoxList.maskFilter xs ms else BoxList.maskFilter xs ms := by
  cases b <;> simp [BoxList.maskFilter, List.filter_cons]

theorem maskFilter_map {α β γ : Type} (f : α → γ) (p : β → Bool) :
    ∀ (xs : List α) (ys : List β), xs.length = ys.length →
      BoxList.maskFilter (xs.map f) (ys.map p) =
        ((xs.zip ys).filter (fun q => p q.2)).map (fun q => f q.1)
  | [], [], _ => rfl
  | [], _ :: _, h => by simp at h
  | _ :: _, [], h => by simp at h
  | x :: xs, y :: ys, h => by
    have ih := maskFilter_map f p xs ys (by simpa using h)
    by_cases hp : p y <;>
      simp [maskFilter_cons, List.filter_cons, hp, ih]

theorem maskFilter_self {β : Type} (p : β → Bool) (ys : List β) :
    BoxList.maskFilter ys (ys.map p) = ys.filter p := by
  induction ys with
  | nil => rfl
  | cons y ys ih =>
    by_cases hp : p y <;> simp [maskFilter_cons, List.filter_cons, hp, ih]

/-! ## Claim theorems -/

/-- C8 counterexample: the sub-loss name list of the adapter is not ordered
with `total_loss` last; `total_loss` is its first element. -/
theorem claim8_counterexample :
    MyFasterRCNN.subloss_names ≠
      ["loss_box_reg", "loss_classifier", "loss_objectness", "loss_rpn_box_reg",
       "total_loss"] := by
  decide

/-- C8 (amended): the Detector Adapter carries the fixed ordered sub-loss
name list `total_loss, loss_box_reg, loss_classifier, loss_objectness,
loss_rpn_box_reg` — the synthetic `total_loss` comes first, followed by the
four detector sub-losses in order. -/
theorem claim8_subloss_names :
    MyFasterRCNN.subloss_names =
      ["total_loss", "loss_box_reg", "loss_classifier", "loss_objectness",
       "loss_rpn_box_reg"] := rfl

/-- C9: `to_xyxy()` followed by `to_yxyx()` is the identity on a BoxList's
box coordinates — both apply the self-inverse column permutation
(a, b, c, d) ↦ (b, a, d, c). -/
theorem claim9_xyxy_yxyx_roundtrip (bl : BoxList) :
    bl.xyxy.yxyx.boxes = bl.boxes := by
  simp [BoxList.xyxy, BoxList.yxyx, List.map_map, Function.comp_def, Box.perm_perm]

/-- C10: the geometric operations `xyxy`, `yxyx`, `clamp` and `scale` return a
BoxList whose extras mapping is exactly the input's — same field names, same
per-field value sequences, same alignment; only the box array changes. -/
theorem claim10_geometric_ops_preserve_extras (bl : BoxList) (ih iw ysc xsc : ℚ) :
    bl.xyxy.extras = bl.extras ∧ bl.yxyx.extras = bl.extras ∧
      (bl.clamp ih iw).extras = bl.extras ∧ (bl.scale ysc xsc).extras = bl.extras :=
  ⟨rfl, rfl, rfl, rfl⟩

/-- C3 counterexample: `dupRowsA` and `dupRowsB` have equal length and equal
row-tuple sets but different row-tuple multisets (duplicated rows), yet
`equal` returns `True` — so equality is not multiset-equality of rows. -/
theorem claim3_counterexample :
    BoxList.equal dupRowsA dupRowsB = true ∧
      dupRowsA.boxes.length = dupRowsB.boxes.length ∧
      Multiset.ofList (BoxList.rowTuples dupRowsA) ≠
        Multiset.ofList (BoxList.rowTuples dupRowsB) := by
  refine ⟨by decide, rfl, by decide⟩

/-- C4 counterexample: concatenating two BoxLists with differing extra-field
key sets (`labels` only vs `scores` only) raises no error: it silently
returns a BoxList holding both keys, each concatenated only over the inputs
that carry it (misaligned with the two boxes). -/
theorem claim4_counterexample :
    BoxList.cat [catInA, catInB] =
      some ⟨[boxOne, boxTwo],
            [("labels", ⟨[5], DType.long⟩), ("scores", ⟨[7/10], DType.float⟩)]⟩ := rfl

/-- C5 counterexample: loading the two-image annotation file whose image A has
the single bbox `[10, 20, 30, 40]` (x, y, w, h) yields for A the yxyx box
`[20, 10, 60, 40]` (= (ymin, xmin, ymin+height, xmin+width)), not the claimed
`[20, 10, 50, 60]`. -/
theorem claim5_counterexample :
    (exDs.getBoxList 0).boxes = [⟨20, 10, 60, 40⟩] ∧
      (exDs.getBoxList 0).boxes ≠ [(⟨20, 10, 50, 60⟩ : Box)] := by
  constructor <;>
    norm_num [exDs, CocoDataset.init, CocoDataset.getBoxList, cocoStep, exAnnJson,
      addMulti, alookup, convBox, Box.mk.injEq]

/-- C1: in training mode, every sample's target BoxList is augmented before
being handed to the wrapped detector's loss computation: the boxes become the
original boxes followed by the synthetic full-image class-0 box `[0, 0, h, w]`
(so an empty target yields exactly this one box, and a k-box target yields
k+1 boxes), and the labels gain a trailing 0. -/
theorem claim1_train_target_augmentation (sizes : List (ℚ × ℚ))
    (targets : List BoxList) (i : Nat)
    (h1 : i < sizes.length) (h2 : i < targets.length) :
    ((MyFasterRCNN.augmentTargets sizes targets).getD i default).boxes =
        (targets.getD i default).boxes ++
          [⟨0, 0, (sizes.getD i (0, 0)).1, (sizes.getD i (0, 0)).2⟩] ∧
      ((MyFasterRCNN.augmentTargets sizes targets).getD i default).boxes.length =
        (targets.getD i default).boxes.length + 1 ∧
      ((MyFasterRCNN.augmentTargets sizes targets).getD i default).labelsData =
        (targets.getD i default).labelsTensor.data ++ [0] ∧
      ((targets.getD i default).boxes = [] →
        ((MyFasterRCNN.augmentTargets sizes targets).getD i default).boxes =
          [⟨0, 0, (sizes.getD i (0, 0)).1, (sizes.getD i (0, 0)).2⟩]) := by
  have hz := getD_zipWith MyFasterRCNN.augTarget sizes targets i (0, 0) default
    default h1 h2
  rw [MyFasterRCNN.augmentTargets, hz]
  refine ⟨rfl, by simp [MyFasterRCNN.augTarget], ?_, ?_⟩
  · simp [MyFasterRCNN.augTarget, BoxList.labelsData, BoxList.labelsTensor, alookup]
  · intro he
    simp only [MyFasterRCNN.augTarget]
    rw [he, List.nil_append]

/-- Witness for C1 at a concrete empty-target batch of one 100×200 image. -/
theorem claim1_witness :
    (0 < [((100 : ℚ), (200 : ℚ))].length ∧ 0 < [emptyTarget].length) ∧
      (((MyFasterRCNN.augmentTargets [((100 : ℚ), 200)] [emptyTarget]).getD 0
            default).boxes =
          emptyTarget.boxes ++ [⟨0, 0, 100, 200⟩] ∧
        ((MyFasterRCNN.augmentTargets [((100 : ℚ), 200)] [emptyTarget]).getD 0
            default).boxes.length = emptyTarget.boxes.length + 1 ∧
        ((MyFasterRCNN.augmentTargets [((100 : ℚ), 200)] [emptyTarget]).getD 0
            default).labelsData = emptyTarget.labelsTensor.data ++ [0] ∧
        (emptyTarget.boxes = [] →
          ((MyFasterRCNN.augmentTargets [((100 : ℚ), 200)] [emptyTarget]).getD 0
              default).boxes = [⟨0, 0, 100, 200⟩])) :=
  ⟨⟨by decide, by decide⟩,
    claim1_train_target_augmentation [((100 : ℚ), 200)] [emptyTarget] 0
      (by decide) (by decide)⟩

/-- C2: in inference mode no returned BoxList contains a label-0 box; each
returned BoxList keeps exactly the rows of its raw detector output whose
label is non-zero, with box coordinates permuted from xyxy to yxyx and labels
and scores carried through aligned. -/
theorem claim2_infer_filters_label_zero (outs : List MyFasterRCNN.RawOut)
    (hwf : ∀ o ∈ outs,
      o.labels.length = o.boxes.length ∧ o.scores.length = o.boxes.length) :
    ∀ bl ∈ MyFasterRCNN.forward_infer outs,
      ((0 : ℚ) ∉ bl.labelsData) ∧
        ∃ o ∈ outs,
          bl.boxes = ((o.boxes.zip o.labels).filter
              (fun q => decide (q.2 ≠ 0))).map (fun q => q.1.perm) ∧
            bl.labelsData = o.labels.filter (fun l => decide (l ≠ 0)) ∧
            bl.scoresData = ((o.scores.zip o.labels).filter
              (fun q => decide (q.2 ≠ 0))).map (fun q => q.1) := by
  intro bl hbl
  rcases List.mem_map.mp hbl with ⟨o, ho, rfl⟩
  obtain ⟨hl, hs⟩ := hwf o ho
  have hboxes : (MyFasterRCNN.processOut o).boxes =
      ((o.boxes.zip o.labels).filter (fun q => decide (q.2 ≠ 0))).map
        (fun q => q.1.perm) := by
    have := maskFilter_map Box.perm (fun l : ℚ => decide (l ≠ 0)) o.boxes o.labels hl.symm
    simpa [MyFasterRCNN.processOut, BoxList.indFilterMask, BoxList.yxyx,
      BoxList.labelsData, BoxList.labelsTensor, alookup] using this
  have hlabels : (MyFasterRCNN.processOut o).labelsData =
      o.labels.filter (fun l => decide (l ≠ 0)) := by
    have := maskFilter_self (fun l : ℚ => decide (l ≠ 0)) o.labels
    simpa [MyFasterRCNN.processOut, BoxList.indFilterMask, BoxList.yxyx,
      BoxList.labelsData, BoxList.labelsTensor, alookup] using this
  have hscores : (MyFasterRCNN.processOut o).scoresData =
      ((o.scores.zip o.labels).filter (fun q => decide (q.2 ≠ 0))).map
        (fun q => q.1) := by
    have hid := maskFilter_map (fun s : ℚ => s) (fun l : ℚ => decide (l ≠ 0))
      o.scores o.labels (by omega)
    simpa [MyFasterRCNN.processOut, BoxList.indFilterMask, BoxList.yxyx,
      BoxList.scoresData, BoxList.labelsData, BoxList.labelsTensor, alookup]
      using hid
  refine ⟨?_, o, ho, hboxes, hlabels, hscores⟩
  rw [hlabels]
  simp

/-- Witness for C2 at a concrete batch whose single raw output mixes a
label-0 box with a label-3 box. -/
theorem claim2_witness :
    (∀ o ∈ [exRawOut],
        o.labels.length = o.boxes.length ∧ o.scores.length = o.boxes.length) ∧
      (∀ bl ∈ MyFasterRCNN.forward_infer [exRawOut],
        ((0 : ℚ) ∉ bl.labelsData) ∧
          ∃ o ∈ [exRawOut],
            bl.boxes = ((o.boxes.zip o.labels).filter
                (fun q => decide (q.2 ≠ 0))).map (fun q => q.1.perm) ∧
              bl.labelsData = o.labels.filter (fun l => decide (l ≠ 0)) ∧
              bl.scoresData = ((o.scores.zip o.labels).filter
                (fun q => decide (q.2 ≠ 0))).map (fun q => q.1)) :=
  ⟨by decide, claim2_infer_filters_label_zero [exRawOut] (by decide)⟩

/-- C3 (amended): `A.equal(B)` returns True iff A and B have the same number
of rows and the same *set* of per-row tuples (box coordinates concatenated
with extras values), ignoring both row order and row multiplicity — so two
equal-length BoxLists whose row sets agree but whose duplicated-row
multiplicities differ compare equal. -/
theorem claim3_equal_set_semantics (a b : BoxList) :
    BoxList.equal a b = true ↔
      (b.boxes.length = a.boxes.length ∧
        ∀ r : List ℚ, r ∈ BoxList.rowTuples a ↔ r ∈ BoxList.rowTuples b) := by
  by_cases h : b.boxes.length = a.boxes.length
  · rw [BoxList.equal, if_neg (by simpa using h)]
    simp [h, BoxList.rowFinset, Finset.ext_iff, List.mem_toFinset]
  · rw [BoxList.equal, if_pos (by simpa using h)]
    simp [h]

theorem alookup_addMulti {κ α : Type} [DecidableEq κ] (acc : List (κ × List α))
    (k : κ) (v : α) (q : κ) :
    alookup (addMulti acc k v) q =
      if q = k then some ((alookup acc k).getD [] ++ [v]) else alookup acc q := by
  induction acc with
  | nil => by_cases h : q = k <;> simp [addMulti, alookup, h]
  | cons kv rest ih =>
    obtain ⟨k', vs⟩ := kv
    by_cases hkk : k = k'
    · subst hkk
      by_cases hq : q = k <;> simp [addMulti, alookup, hq]
    · by_cases hq : q = k'
      · subst hq
        simp [addMulti, alookup, hkk, Ne.symm hkk]
      · simp [addMulti, alookup, hkk, hq, ih]

theorem alookup_foldl_addMulti {κ α β : Type} [DecidableEq κ] [DecidableEq β]
    (f : β → κ) (g : β → α) (l : List β) (acc : List (κ × List α)) (q : κ) :
    alookup (l.foldl (fun d x => addMulti d (f x) (g x)) acc) q =
      if l.filter (fun x => decide (f x = q)) = [] then alookup acc q
      else some ((alookup acc q).getD [] ++
        (l.filter (fun x => decide (f x = q))).map g) := by
  induction l generalizing acc with
  | nil => simp
  | cons x xs ih =>
    rw [List.foldl_cons, ih]
    by_cases hx : f x = q
    · subst hx
      have hcons : List.filter (fun y => decide (f y = f x)) (x :: xs) =
          x :: List.filter (fun y => decide (f y = f x)) xs := by
        simp [List.filter_cons]
      rw [hcons, if_neg (List.cons_ne_nil _ _), alookup_addMulti, if_pos rfl]
      by_cases hfil : xs.filter (fun y => decide (f y = f x)) = []
      · rw [if_pos hfil, hfil]
        simp
      · rw [if_neg hfil]
        simp [List.append_assoc]
    · have hcons : List.filter (fun y => decide (f y = q)) (x :: xs) =
          List.filter (fun y => decide (f y = q)) xs := by
        simp [List.filter_cons, hx]
      rw [hcons, alookup_addMulti,
        if_neg (show ¬q = f x from fun h => hx h.symm)]

theorem alookup_addExtras (acc : List (String × List Tensor1)) (bl : BoxList)
    (q : String) :
    alookup (BoxList.addExtras acc bl) q =
      if extraVals bl q = [] then alookup acc q
      else some ((alookup acc q).getD [] ++ extraVals bl q) := by
  have h := alookup_foldl_addMulti (Prod.fst (α := String) (β := Tensor1))
    Prod.snd bl.extras acc q
  rw [BoxList.addExtras]
  rw [show (fun (a : List (String × List Tensor1)) (kv : String × Tensor1) =>
      addMulti a kv.1 kv.2) = fun d x => addMulti d x.1 x.2 from rfl]
  rw [h]
  by_cases hf : bl.extras.filter (fun kv => decide (kv.1 = q)) = [] <;>
    simp [extraVals, hf, List.map_eq_nil_iff]

theorem alookup_collectExtras_aux (bls : List BoxList)
    (acc : List (String × List Tensor1)) (q : String) :
    alookup (bls.foldl BoxList.addExtras acc) q =
      if fieldVals bls q = [] then alookup acc q
      else some ((alookup acc q).getD [] ++ fieldVals bls q) := by
  induction bls generalizing acc with
  | nil => simp [fieldVals]
  | cons bl bls ih =>
    rw [List.foldl_cons, ih, alookup_addExtras]
    have hfv : fieldVals (bl :: bls) q = extraVals bl q ++ fieldVals bls q := by
      simp [fieldVals]
    rw [hfv]
    by_cases hbl : extraVals bl q = []
    · rw [hbl, List.nil_append]
      by_cases hbls : fieldVals bls q = [] <;> simp [hbl, hbls]
    · by_cases hbls : fieldVals bls q = []
      · rw [hbls, List.append_nil]
        simp [hbl, hbls]
      · rw [if_neg hbls, if_neg (fun h => hbl (List.append_eq_nil.mp h).1),
          if_neg hbl]
        simp [List.append_assoc]

theorem alookup_collectExtras (bls : List BoxList) (q : String) :
    alookup (BoxList.collectExtras bls) q =
      if fieldVals bls q = [] then none else some (fieldVals bls q) := by
  have h := alookup_collectExtras_aux bls [] q
  rw [BoxList.collectExtras, h]
  by_cases hf : fieldVals bls q = [] <;> simp [hf, alookup]

theorem alookup_map_snd {κ α β : Type} [DecidableEq κ] (g : α → β)
    (l : List (κ × α)) (q : κ) :
    alookup (l.map (fun kv => (kv.1, g kv.2))) q = (alookup l q).map g := by
  induction l with
  | nil => rfl
  | cons kv rest ih =>
    by_cases hq : q = kv.1 <;> simp [alookup, hq, ih]

/-- C4 (amended): `cat` performs no key-set validation and cannot fail on
mismatched extras: for every non-empty input list it silently returns a
BoxList whose boxes are the row-wise concatenation of the inputs' boxes in
input order and whose extra field `q` is the concatenation of the `q`-values
of exactly those inputs that carry `q` (so when all inputs share a key set
every field concatenates across all inputs, and when key sets differ the
result is produced anyway, with fields possibly misaligned with the boxes);
only the empty input list fails (`torch.cat` of no tensors). -/
theorem claim4_cat_no_key_validation (bls : List BoxList) (h : bls ≠ []) :
    ∃ r, BoxList.cat bls = some r ∧
      r.boxes = (bls.map BoxList.boxes).flatten ∧
      ∀ q, r.get_field q =
        if fieldVals bls q = [] then none
        else some (BoxList.catTensors (fieldVals bls q)) := by
  refine ⟨_, by rw [BoxList.cat, if_neg (by simpa using h)], rfl, ?_⟩
  intro q
  rw [BoxList.get_field]
  show alookup ((BoxList.collectExtras bls).map
    (fun kv => (kv.1, BoxList.catTensors kv.2))) q = _
  rw [alookup_map_snd, alookup_collectExtras]
  by_cases hf : fieldVals bls q = [] <;> simp [hf]

/-- Witness for C4 at the concrete pair `catInA`, `catInC` sharing the key
set `{labels}`. -/
theorem claim4_witness :
    ([catInA, catInC] : List BoxList) ≠ [] ∧
      ∃ r, BoxList.cat [catInA, catInC] = some r ∧
        r.boxes = ([catInA, catInC].map BoxList.boxes).flatten ∧
        ∀ q, r.get_field q =
          if fieldVals [catInA, catInC] q = [] then none
          else some (BoxList.catTensors (fieldVals [catInA, catInC] q)) :=
  ⟨by decide, claim4_cat_no_key_validation [catInA, catInC] (by decide)⟩

theorem cocoFold_id2boxes (anns : List CocoAnnJson) (ds : CocoDataset) :
    (anns.foldl (fun d an =>
      { d with
        id2boxes := addMulti d.id2boxes an.image_id (convBox an.bbox),
        id2labels := addMulti d.id2labels an.image_id an.category_id }) ds).id2boxes =
      anns.foldl (fun m an => addMulti m an.image_id (convBox an.bbox))
        ds.id2boxes := by
  induction anns generalizing ds with
  | nil => rfl
  | cons an anns ih => rw [List.foldl_cons, List.foldl_cons, ih]

/-- C5 (amended): `CocoDataset` converts every annotation bbox
`[xmin, ymin, width, height]` to the canonical yxyx box
`(ymin, xmin, ymin+height, xmin+width)` and stores it under the annotation's
image id; concretely, loading the two-image annotation file where image A has
the single box `[10, 20, 30, 40]` (x, y, w, h) with category 1 and image B
has no boxes yields for A a BoxList with the single yxyx box `[20, 10, 60, 40]`
and label 1, and for B an empty BoxList with a typed-empty (long) labels
field. -/
theorem claim5_coco_conversion :
    (∀ (aj : CocoJson) (i : Nat),
        alookup (CocoDataset.init [aj]).id2boxes i =
          if annBoxesFor aj i = [] then none else some (annBoxesFor aj i)) ∧
      exDs.getBoxList 0 = ⟨[⟨20, 10, 60, 40⟩], [("labels", ⟨[1], DType.long⟩)]⟩ ∧
      exDs.getBoxList 1 = ⟨[], [("labels", ⟨[], DType.long⟩)]⟩ := by
  refine ⟨?_, ?_, ?_⟩
  · intro aj i
    simp only [CocoDataset.init, List.foldl_cons, List.foldl_nil, cocoStep]
    rw [cocoFold_id2boxes]
    have h := alookup_foldl_addMulti CocoAnnJson.image_id
      (fun an => convBox an.bbox) aj.annotations [] i
    simp only [alookup] at h
    rw [h]
    by_cases hf : aj.annotations.filter (fun an => decide (an.image_id = i)) = [] <;>
      simp [annBoxesFor, hf]
  · norm_num [exDs, CocoDataset.init, cocoStep, exAnnJson, CocoDataset.getBoxList,
      addMulti, alookup, convBox]
  · norm_num [exDs, CocoDataset.init, cocoStep, exAnnJson, CocoDataset.getBoxList,
      addMulti, alookup, convBox]
    decide

theorem preds_nil_iff (outputs : List BoxList) :
    get_coco_preds outputs = [] ↔ ∀ o ∈ outputs, predRows o = [] := by
  rw [get_coco_preds, List.flatten_eq_nil_iff]
  constructor
  · intro h o ho
    have h2 : ∀ y ∈ outputs.enum.map Prod.snd, predRows y = [] := by
      intro y hy
      rcases List.mem_map.mp hy with ⟨p, hp, rfl⟩
      have h3 := h _ (List.mem_map_of_mem _ hp)
      exact List.map_eq_nil_iff.mp h3
    rw [List.enum_map_snd] at h2
    exact h2 o ho
  · intro h l hl
    rcases List.mem_map.mp hl with ⟨p, hp, rfl⟩
    have hmem : p.2 ∈ outputs := by
      have hm := List.mem_map_of_mem Prod.snd hp
      rwa [List.enum_map_snd] at hm
    rw [h p.2 hmem]
    rfl

/-- C6: `compute_coco_eval` returns the explicit undefined result (`None`) —
rather than an exception or a fabricated score — exactly when, across the
whole batch, no output BoxList contributes a prediction record, i.e. when
every output has zero predicted boxes. -/
theorem claim6_undefined_iff_no_preds (outputs targets : List BoxList) (n : Nat)
    (hwf : ∀ o ∈ outputs, o.labelsData.length = o.boxes.length ∧
      o.scoresData.length = o.boxes.length) :
    compute_coco_eval outputs targets n = none ↔ ∀ o ∈ outputs, o.boxes = [] := by
  have hrows : ∀ o ∈ outputs, (predRows o = [] ↔ o.boxes = []) := by
    intro o ho
    obtain ⟨hl, hs⟩ := hwf o ho
    constructor
    · intro hnil
      have hlen : (predRows o).length = o.boxes.length := by
        simp [predRows, List.length_zip, hl, hs, min_self]
      rw [hnil] at hlen
      exact List.length_eq_zero.mp hlen.symm
    · intro hnil
      simp [predRows, hnil]
  constructor
  · intro hnone o ho
    rw [← hrows o ho]
    simp only [compute_coco_eval] at hnone
    by_cases hp : (get_coco_preds outputs).isEmpty
    · rw [List.isEmpty_iff] at hp
      exact (preds_nil_iff outputs).mp hp o ho
    · simp [hp] at hnone
  · intro hall
    simp only [compute_coco_eval]
    have hnil : get_coco_preds outputs = [] :=
      (preds_nil_iff outputs).mpr (fun o ho => (hrows o ho).mpr (hall o ho))
    simp [hnil]

/-- Witness for C6 at a concrete batch with one empty (but well-formed)
output BoxList. -/
theorem claim6_witness :
    (∀ o ∈ [exEmptyOut], o.labelsData.length = o.boxes.length ∧
        o.scoresData.length = o.boxes.length) ∧
      (compute_coco_eval [exEmptyOut] [] 2 = none ↔
        ∀ o ∈ [exEmptyOut], o.boxes = []) :=
  ⟨by decide, claim6_undefined_iff_no_preds [exEmptyOut] [] 2 (by decide)⟩

theorem headD_eq_getD {α : Type} (l : List α) (d : α) : l.headD d = l.getD 0 d := by
  cases l <;> rfl

theorem getD_mem {α : Type} (l : List α) (i : Nat) (d : α) (h : i < l.length) :
    l.getD i d ∈ l := by
  rw [List.getD_eq_getElem _ _ h]
  exact List.getElem_mem h

theorem listMaxD_cons_cons (x y : ℚ) (ys : List ℚ) :
    listMaxD (x :: y :: ys) = max x (listMaxD (y :: ys)) := rfl

theorem listArgmax_cons_cons (x y : ℚ) (ys : List ℚ) :
    listArgmax (x :: y :: ys) =
      if listMaxD (y :: ys) ≤ x then 0 else listArgmax (y :: ys) + 1 := rfl

theorem listMaxD_spec (xs : List ℚ) (hne : xs ≠ []) :
    (∀ x ∈ xs, x ≤ listMaxD xs) ∧ listMaxD xs ∈ xs := by
  induction xs with
  | nil => simp at hne
  | cons x xs ih =>
    cases xs with
    | nil => simp [listMaxD]
    | cons y ys =>
      obtain ⟨ih1, ih2⟩ := ih (by simp)
      rw [listMaxD_cons_cons]
      constructor
      · intro z hz
        rcases List.mem_cons.mp hz with rfl | hz2
        · exact le_max_left _ _
        · exact le_trans (ih1 z hz2) (le_max_right _ _)
      · rcases max_choice x (listMaxD (y :: ys)) with hm | hm
        · rw [hm]
          exact List.mem_cons_self _ _
        · rw [hm]
          exact List.mem_cons_of_mem _ ih2

theorem listArgmax_spec (xs : List ℚ) (hne : xs ≠ []) :
    listArgmax xs < xs.length ∧
      xs.getD (listArgmax xs) 0 = listMaxD xs ∧
      ∀ j < listArgmax xs, xs.getD j 0 < listMaxD xs := by
  induction xs with
  | nil => simp at hne
  | cons x xs ih =>
    cases xs with
    | nil =>
      refine ⟨by simp [listArgmax], by simp [listArgmax, listMaxD], ?_⟩
      intro j hj
      simp [listArgmax] at hj
    | cons y ys =>
      obtain ⟨ih1, ih2, ih3⟩ := ih (by simp)
      rw [listArgmax_cons_cons, listMaxD_cons_cons]
      by_cases hle : listMaxD (y :: ys) ≤ x
      · rw [if_pos hle]
        refine ⟨by simp, by simp [max_eq_left hle], ?_⟩
        intro j hj
        omega
      · rw [if_neg hle]
        push_neg at hle
        rw [max_eq_right (le_of_lt hle)]
        refine ⟨by simpa using ih1, by simpa using ih2, ?_⟩
        intro j hj
        cases j with
        | zero => simpa using hle
        | succ j2 =>
          have hlt := ih3 j2 (by omega)
          simpa using hlt

theorem length_recallGrid (n : Nat) : (recallGrid n).length = n := by
  rw [recallGrid, List.length_map, List.length_range]

theorem recallGrid_getD (n i : Nat) (hi : i < n) (hn : 2 ≤ n) :
    (recallGrid n).getD i 0 = (i : ℚ) / ((n : ℚ) - 1) := by
  have hi2 : i < (recallGrid n).length := by
    rw [length_recallGrid]
    exact hi
  rw [recallGrid] at hi2 ⊢
  rw [List.getD_eq_getElem _ _ hi2, List.getElem_map, List.getElem_range,
    if_neg (by omega)]

theorem length_f1Mat (P : List (List ℚ)) : (f1Mat P).length = P.length := by
  rw [f1Mat, List.length_map, List.length_zip, length_recallGrid, min_self]

theorem length_column (M : List (List ℚ)) (k : Nat) :
    (column M k).length = M.length := by
  rw [column, List.length_map]

theorem column_getD (M : List (List ℚ)) (k i : Nat) (hi : i < M.length) :
    (column M k).getD i 0 = (M.getD i []).getD k 0 := by
  have hiC : i < (column M k).length := by
    rw [length_column]
    exact hi
  rw [column] at hiC ⊢
  rw [List.getD_eq_getElem _ _ hiC, List.getElem_map, List.getD_eq_getElem _ _ hi]

theorem f1Mat_entry (P : List (List ℚ)) (i k : Nat) (hi : i < P.length)
    (hk : k < (P.getD i []).length) :
    ((f1Mat P).getD i []).getD k 0 =
      f1q ((P.getD i []).getD k 0) ((recallGrid P.length).getD i 0) := by
  have hiz : i < (P.zip (recallGrid P.length)).length := by
    rw [List.length_zip, length_recallGrid, min_self]
    exact hi
  have hiR : i < (recallGrid P.length).length := by
    rw [length_recallGrid]
    exact hi
  have hiF : i < (f1Mat P).length := by
    rw [length_f1Mat]
    exact hi
  have hk2 : k < P[i].length := by
    rwa [List.getD_eq_getElem _ _ hi] at hk
  rw [f1Mat] at hiF ⊢
  rw [List.getD_eq_getElem _ _ hiF, List.getElem_map, List.getElem_zip]
  show (P[i].map (fun p => f1q p (recallGrid P.length)[i])).getD k 0 = _
  rw [List.getD_eq_getElem _ _ (by simpa using hk2), List.getElem_map,
    List.getD_eq_getElem _ _ hi, List.getD_eq_getElem _ _ hk2,
    List.getD_eq_getElem _ _ hiR]

theorem length_slice (arr : Arr5) :
    (sliceT0A0Mlast arr).length = (arr.headD []).length := by
  rw [sliceT0A0Mlast, List.length_map]

theorem slice_row_length (arr : Arr5) (i : Nat) (hi : i < (arr.headD []).length) :
    ((sliceT0A0Mlast arr).getD i []).length = ((arr.headD []).getD i []).length := by
  have hi2 : i < (sliceT0A0Mlast arr).length := by
    rw [length_slice]
    exact hi
  rw [sliceT0A0Mlast] at hi2 ⊢
  rw [List.getD_eq_getElem _ _ hi2, List.getElem_map, List.getD_eq_getElem _ _ hi,
    List.length_map]

theorem slice_entry (arr : Arr5) (i k : Nat) (hi : i < (arr.headD []).length)
    (hk : k < ((arr.headD []).getD i []).length) :
    ((sliceT0A0Mlast arr).getD i []).getD k 0 = entryT0A0Mlast arr i k := by
  have hi2 : i < (sliceT0A0Mlast arr).length := by
    rw [length_slice]
    exact hi
  have hk2 : k < (arr.headD [])[i].length := by
    rwa [List.getD_eq_getElem _ _ hi] at hk
  rw [sliceT0A0Mlast] at hi2 ⊢
  rw [entryT0A0Mlast, List.getD_eq_getElem _ _ hi2, List.getElem_map]
  show ((arr.headD [])[i].map (fun byA => (byA.headD []).getLastD 0)).getD k 0 = _
  rw [List.getD_eq_getElem _ _ (by simpa using hk2), List.getElem_map,
    show arr.getD 0 [] = arr.headD [] from (headD_eq_getD arr []).symm,
    List.getD_eq_getElem _ _ hi, List.getD_eq_getElem _ _ hk2, headD_eq_getD]

theorem bestF1s_length (precision scoresArr : Arr5) (K : Nat)
    (hK0 : ((sliceT0A0Mlast precision).headD []).length = K) :
    (bestF1s precision scoresArr).length = K := by
  simp only [bestF1s, compute_class_f1, hK0]
  rw [List.length_map, List.length_range]

theorem bestF1s_getD (precision scoresArr : Arr5) (K kk : Nat)
    (hK0 : ((sliceT0A0Mlast precision).headD []).length = K) (hkk : kk < K) :
    (bestF1s precision scoresArr).getD kk 0 =
      listMaxD (column (f1Mat (sliceT0A0Mlast precision)) kk) := by
  simp only [bestF1s, compute_class_f1, hK0]
  rw [List.getD_eq_getElem _ _ (by simpa using hkk), List.getElem_map,
    List.getElem_range]

theorem bestScores_getD (precision scoresArr : Arr5) (K kk : Nat)
    (hK0 : ((sliceT0A0Mlast precision).headD []).length = K) (hkk : kk < K) :
    (bestScores precision scoresArr).getD kk 0 =
      ((sliceT0A0Mlast scoresArr).getD
        (listArgmax (column (f1Mat (sliceT0A0Mlast precision)) kk)) []).getD kk 0 := by
  have hinds : ((List.range K).map (fun k =>
      listArgmax (column (f1Mat (sliceT0A0Mlast precision)) k))).getD kk 0 =
      listArgmax (column (f1Mat (sliceT0A0Mlast precision)) kk) := by
    rw [List.getD_eq_getElem _ _ (by simpa using hkk), List.getElem_map,
      List.getElem_range]
  simp only [bestScores, compute_class_f1, hK0]
  rw [List.getD_eq_getElem _ _ (by simpa using hkk), List.getElem_map,
    List.getElem_range, hinds]

/-- C7: `compute_class_f1` reads the precision/scores arrays at IoU-threshold
index 0 (the IoU=0.5 entry of the COCO threshold grid), area-range index 0 and
the last max-detections index, computes F1 = 2·p·r / max(p + r, 1e-4) across
the 101-point recall grid r = i/100, and returns, for each class, the best F1
achieved together with the confidence score at the (first) recall index that
maximizes F1 — not the overall best score. -/
theorem claim7_class_f1 (precision scoresArr : Arr5) (K : Nat)
    (hR : (precision.headD []).length = 101)
    (hrect : ∀ row ∈ precision.headD [], row.length = K)
    (hSR : (scoresArr.headD []).length = 101)
    (hSrect : ∀ row ∈ scoresArr.headD [], row.length = K)
    (k : Nat) (hk : k < K) :
    (bestF1s precision scoresArr).length = K ∧
      (∀ i < 101, f1At precision i k ≤ (bestF1s precision scoresArr).getD k 0) ∧
      ∃ i, i < 101 ∧
        f1At precision i k = (bestF1s precision scoresArr).getD k 0 ∧
        (bestScores precision scoresArr).getD k 0 = entryT0A0Mlast scoresArr i k ∧
        ∀ j < i, f1At precision j k < (bestF1s precision scoresArr).getD k 0 := by
  have hPlen : (sliceT0A0Mlast precision).length = 101 :=
    (length_slice precision).trans hR
  have hProw : ∀ i, i < 101 →
      ((sliceT0A0Mlast precision).getD i []).length = K := by
    intro i hi
    rw [slice_row_length precision i (by rw [hR]; exact hi)]
    exact hrect _ (getD_mem _ i [] (by rw [hR]; exact hi))
  have hK0 : ((sliceT0A0Mlast precision).headD []).length = K := by
    rw [headD_eq_getD]
    exact hProw 0 (by norm_num)
  have hFlen : (f1Mat (sliceT0A0Mlast precision)).length = 101 :=
    (length_f1Mat _).trans hPlen
  have hcollen : (column (f1Mat (sliceT0A0Mlast precision)) k).length = 101 :=
    (length_column _ _).trans hFlen
  have hcolne : column (f1Mat (sliceT0A0Mlast precision)) k ≠ [] := by
    intro h
    rw [h] at hcollen
    simp at hcollen
  have hcol : ∀ i, i < 101 →
      (column (f1Mat (sliceT0A0Mlast precision)) k).getD i 0 =
        f1At precision i k := by
    intro i hi
    rw [column_getD _ k i (by rw [hFlen]; exact hi),
      f1Mat_entry _ i k (by rw [hPlen]; exact hi) (by rw [hProw i hi]; exact hk),
      slice_entry precision i k (by rw [hR]; exact hi)
        (by rw [← slice_row_length precision i (by rw [hR]; exact hi),
             hProw i hi]
            exact hk),
      recallGrid_getD _ i (by rw [hPlen]; exact hi) (by rw [hPlen]; norm_num),
      hPlen]
    norm_num [f1At, f1q]
  obtain ⟨hargl, hargv, hargfirst⟩ :=
    listArgmax_spec (column (f1Mat (sliceT0A0Mlast precision)) k) hcolne
  have hargl101 :
      listArgmax (column (f1Mat (sliceT0A0Mlast precision)) k) < 101 := by
    rw [← hcollen]
    exact hargl
  refine ⟨bestF1s_length precision scoresArr K hK0, ?_,
    listArgmax (column (f1Mat (sliceT0A0Mlast precision)) k), hargl101,
    ?_, ?_, ?_⟩
  · intro i hi
    rw [bestF1s_getD precision scoresArr K k hK0 hk, ← hcol i hi]
    exact (listMaxD_spec _ hcolne).1 _ (getD_mem _ i 0 (by rw [hcollen]; exact hi))
  · rw [bestF1s_getD precision scoresArr K k hK0 hk, ← hcol _ hargl101]
    exact hargv
  · rw [bestScores_getD precision scoresArr K k hK0 hk]
    exact slice_entry scoresArr _ k (by rw [hSR]; exact hargl101)
      (by rw [hSrect _ (getD_mem _ _ [] (by rw [hSR]; exact hargl101))]
          exact hk)
  · intro j hj
    rw [bestF1s_getD precision scoresArr K k hK0 hk,
      ← hcol j (lt_trans hj hargl101)]
    exact hargfirst j hj

/-- Witness for C7 at concrete `[1, 101, 1, 1, 1]` eval arrays with constant
precision 1/2 and scores `i / 1000`. -/
theorem claim7_witness :
    ((exPrecArr.headD []).length = 101 ∧
        (∀ row ∈ exPrecArr.headD [], row.length = 1) ∧
        (exScoreArr.headD []).length = 101 ∧
        (∀ row ∈ exScoreArr.headD [], row.length = 1) ∧
        0 < 1) ∧
      ((bestF1s exPrecArr exScoreArr).length = 1 ∧
        (∀ i < 101,
          f1At exPrecArr i 0 ≤ (bestF1s exPrecArr exScoreArr).getD 0 0) ∧
        ∃ i, i < 101 ∧
          f1At exPrecArr i 0 = (bestF1s exPrecArr exScoreArr).getD 0 0 ∧
          (bestScores exPrecArr exScoreArr).getD 0 0 =
            entryT0A0Mlast exScoreArr i 0 ∧
          ∀ j < i,
            f1At exPrecArr j 0 < (bestF1s exPrecArr exScoreArr).getD 0 0) :=
  ⟨⟨by decide, by decide, by decide, by decide, by decide⟩,
    claim7_class_f1 exPrecArr exScoreArr 1 (by decide) (by decide) (by decide)
      (by decide) 0 (by decide)⟩
